import Mathlib

/-!
Shallow embedding of the peer-discovery core of the drkn1 repository
(`src/network/DHT.js`, `src/utils/NodeStorage.js`): the Kademlia-style
routing table (`DHTManager`), the persisted peer identity loader
(`NetworkManager._loadOrCreatePeerId` / `NodeStorage.loadNodeInfo`) and the
best-effort `NetworkManager.broadcast`.

Modelling conventions:
* Node ids are hex strings, decoded to byte lists exactly as
  `Buffer.from(id, 'hex')` does (pairs of hex digits, decoding stops at the
  first invalid or incomplete pair).
* JavaScript's `<<` and `|` coerce to 32-bit signed integers, so the XOR
  "distance" accumulated in `_calculateDistance` is the two's-complement
  interpretation of the low 32 bits of the accumulator; we track the
  unsigned 32-bit accumulator as a `Nat` and convert to a signed `Int` at
  the end.
* `Date.now()` is passed in explicitly as `now : Nat`.
* A JavaScript `Map` is an insertion-ordered association list; `Map.set`
  updates in place when the key exists and appends otherwise.
* A JavaScript function that can throw is modelled with `Option` (`none` =
  an exception escapes); a function that returns `undefined` has the
  returned JS value modelled as `none : Option Nat`.
-/

namespace Drkn

/-- Value of one hex digit, as Node's `Buffer.from(·, 'hex')` decodes it. -/
def hexDigit? (c : Char) : Option Nat :=
  if '0' ≤ c ∧ c ≤ '9' then some (c.toNat - '0'.toNat)
  else if 'a' ≤ c ∧ c ≤ 'f' then some (c.toNat - 'a'.toNat + 10)
  else if 'A' ≤ c ∧ c ≤ 'F' then some (c.toNat - 'A'.toNat + 10)
  else none

/-- `Buffer.from(s, 'hex')` on a character list: decode hex-digit pairs,
stopping at the first invalid or incomplete pair. -/
def hexBytesAux : List Char → List Nat
  | c1 :: c2 :: rest =>
    match hexDigit? c1, hexDigit? c2 with
    | some h, some l => (16 * h + l) :: hexBytesAux rest
    | _, _ => []
  | _ => []

/-- `Buffer.from(s, 'hex')` as a list of byte values. -/
def hexBytes (s : String) : List Nat := hexBytesAux s.data

/-- Truncation to the low 32 bits, as JavaScript bitwise operators do. -/
def u32 (n : Nat) : Nat := n % 4294967296

/-- Two's-complement reading of a 32-bit unsigned value: the signed JS
number produced by a `|` expression. -/
def toInt32 (n : Nat) : Int :=
  if n < 2147483648 then (n : Int) else (n : Int) - 4294967296

/-- The accumulator loop of `_calculateDistance`:
`distance = (distance << 8) | (id1[i] ^ id2[i])` over the byte-wise XOR
list, on the unsigned 32-bit representative. -/
def distFold (bs : List Nat) : Nat :=
  bs.foldl (fun d b => u32 (d <<< 8) ||| b) 0

/-- `DHTManager._calculateDistance(nodeId1, nodeId2)`: XOR the decoded
byte sequences (truncated to the shorter length, as `zipWith` does, which
matches `Math.min(id1.length, id2.length)`), fold through the 32-bit
accumulator, and read the result as a signed 32-bit number. -/
def calculateDistance (nodeId1 nodeId2 : String) : Int :=
  toInt32 (distFold (List.zipWith (fun a b => a ^^^ b) (hexBytes nodeId1) (hexBytes nodeId2)))

/-- Kernel-computable floor of the base-2 logarithm for numbers below
2^32 (every distance produced by `_calculateDistance` is below 2^32):
the largest `j ≤ 32` with `2 ^ j ≤ n`, found by a bounded scan.
`floorLog2_eq_log2` below proves it agrees with `Nat.log2` on the whole
range of 32-bit distances; it is used instead of `Nat.log2` only because
the latter is defined by well-founded recursion, which the kernel cannot
evaluate on concrete inputs. -/
def floorLog2 (n : Nat) : Nat :=
  (List.range 32).foldl (fun acc k => if 2 ^ (k + 1) ≤ n then k + 1 else acc) 0

theorem floorLog2_eq_log2 (n : Nat) (h1 : 0 < n) (h2 : n < 4294967296) :
    floorLog2 n = Nat.log2 n := by
  have hne : n ≠ 0 := Nat.pos_iff_ne_zero.mp h1
  have hfold : ∀ m : Nat,
      (List.range m).foldl (fun acc k => if 2 ^ (k + 1) ≤ n then k + 1 else acc) 0 =
        min (Nat.log2 n) m := by
    intro m
    induction m with
    | zero => simp
    | succ m ih =>
      rw [List.range_succ, List.foldl_append, ih]
      simp only [List.foldl_cons, List.foldl_nil]
      by_cases h : 2 ^ (m + 1) ≤ n
      · rw [if_pos h]
        have : m + 1 ≤ Nat.log2 n := (Nat.le_log2 hne).mpr h
        omega
      · rw [if_neg h]
        have : ¬ (m + 1 ≤ Nat.log2 n) := fun hc => h ((Nat.le_log2 hne).mp hc)
        omega
  have hlt : Nat.log2 n < 32 := by
    rw [Nat.log2_lt hne]
    calc n < 4294967296 := h2
    _ = 2 ^ 32 := by norm_num
  unfold floorLog2
  rw [hfold 32]
  omega

/-- `DHTManager._getBucketIndex(nodeId)`:
`Math.min(Math.max(0, Math.floor(Math.log2(distance))), 159)`.
For `distance > 0` (an integer below 2^31), `Math.floor(Math.log2 d)` is
exactly `Nat.log2 d` (the double-precision error of `Math.log2` is far
smaller than the distance of `log2 d` to the nearest integer for `d < 2^31`
not a power of two, and exact on powers of two), and `Math.max(0, ·)` is
the identity.  For `distance = 0`, `Math.log2` gives `-Infinity`, so the
clamp yields `0`.  For `distance < 0`, `Math.log2` gives `NaN`, and both
`Math.max(0, NaN)` and `Math.min(NaN, 159)` are `NaN`: modelled as `none`.
`floorLog2` here equals `Nat.log2` on every reachable distance
(`floorLog2_eq_log2`; distances are below 2^32 by construction). -/
def getBucketIndex (selfId nodeId : String) : Option Nat :=
  let d := calculateDistance selfId nodeId
  if 0 < d then some (min (floorLog2 d.toNat) 159)
  else if d = 0 then some 0
  else none

theorem distFold_symm_aux (xs ys : List Nat) :
    List.zipWith (fun a b => a ^^^ b) xs ys = List.zipWith (fun a b => a ^^^ b) ys xs :=
  List.zipWith_comm_of_comm (fun a b => a ^^^ b) Nat.xor_comm xs ys

theorem distFold_self_zero (xs : List Nat) :
    distFold (List.zipWith (fun a b => a ^^^ b) xs xs) = 0 := by
  rw [List.zipWith_same]
  unfold distFold
  induction xs with
  | nil => rfl
  | cons x xs ih =>
    simpa [Nat.xor_self, Nat.zero_shiftLeft, u32] using ih

/-- C8: the XOR distance is symmetric, and the distance of any id to
itself is zero. -/
theorem calculateDistance_symm_and_self :
    (∀ a b : String, calculateDistance a b = calculateDistance b a) ∧
    (∀ a : String, calculateDistance a a = 0) := by
  constructor
  · intro a b
    unfold calculateDistance
    rw [distFold_symm_aux]
  · intro a
    unfold calculateDistance
    rw [distFold_self_zero]
    rfl

/-- The payload of a routing-table entry (`info` as passed to `addNode`,
before the `lastSeen` field is overwritten). -/
structure NodeInfo where
  ip : String
  port : Nat
  deriving DecidableEq, Repr

/-- One routing-table / bucket entry: `{...info, lastSeen: Date.now()}`. -/
structure Entry where
  info : NodeInfo
  lastSeen : Nat
  deriving DecidableEq, Repr

/-- A JavaScript `Map` keyed by node id: an insertion-ordered association
list. -/
abbrev PeerMap := List (String × Entry)

/-- `Map.prototype.has`. -/
def mapHas (m : PeerMap) (k : String) : Bool :=
  m.any (fun p => p.1 == k)

/-- `Map.prototype.set`: update in place when the key exists (the entry
keeps its position), append otherwise. -/
def mapSet (m : PeerMap) (k : String) (v : Entry) : PeerMap :=
  if mapHas m k then m.map (fun p => if p.1 == k then (k, v) else p)
  else m ++ [(k, v)]

/-- `Map.prototype.delete`. -/
def mapDelete (m : PeerMap) (k : String) : PeerMap :=
  m.filter (fun p => p.1 != k)

/-- The `DHTManager` state relevant to the routing table: the local node
id, the flat `routingTable` map and the 160 `buckets` (modelled as a total
function from the bucket index; every index the code reaches is below
160). -/
structure DHTState where
  nodeId : String
  routingTable : PeerMap
  buckets : Nat → PeerMap

/-- `DHTManager.addNode(nodeId, info)`.  The `nodeId` argument is `none`
for JS `null`/`undefined`; `some ""` is the empty string (also falsy).
Returns the JS boolean result together with the new state.  The body can
throw nothing (plain map/array operations), so the `catch` branch is dead;
`this.routingTable` and `this.buckets` are always initialized by the
constructor, so their truthiness checks pass. -/
def addNode (st : DHTState) (nodeId : Option String) (info : NodeInfo) (now : Nat) :
    Bool × DHTState :=
  match nodeId with
  | none => (false, st)
  | some nid =>
    if nid = "" then (false, st)
    else
      let rt := mapSet st.routingTable nid ⟨info, now⟩
      match getBucketIndex st.nodeId nid with
      | some i =>
        if i < 160 then
          (true, { st with
            routingTable := rt
            buckets := fun j => if j = i then mapSet (st.buckets i) nid ⟨info, now⟩
                                else st.buckets j })
        else (true, { st with routingTable := rt })
      | none => (true, { st with routingTable := rt })

/-- `DHTManager.removeNode(nodeId)`.  When the node is present the code
deletes it from `routingTable`, then computes the bucket index and runs
`this.buckets[bucketIndex].delete(nodeId)` unguarded: a `NaN` index makes
`this.buckets[NaN]` `undefined` and the `.delete` call throw a
`TypeError`, modelled as `none`. -/
def removeNode (st : DHTState) (nodeId : String) : Option DHTState :=
  if mapHas st.routingTable nodeId then
    let rt := mapDelete st.routingTable nodeId
    match getBucketIndex st.nodeId nodeId with
    | some i =>
      some { st with
        routingTable := rt
        buckets := fun j => if j = i then mapDelete (st.buckets i) nodeId
                            else st.buckets j }
    | none => none
  else some st

/-- TTL used by `isNodeAlive` and `cleanupStaleNodes`: 30 minutes. -/
def ttl : Nat := 1000 * 60 * 30

/-- Staleness test of `cleanupStaleNodes`: `now - info.lastSeen > ttl`.
With JS numbers a future `lastSeen` gives a negative difference, which is
not `> ttl`; truncated `Nat` subtraction gives `0`, equally not `> ttl`. -/
def isStale (now : Nat) (e : Entry) : Bool :=
  now - e.lastSeen > ttl

/-- The iteration of `cleanupStaleNodes` over the routing-table entries.
`Map` iteration is live, but `removeNode` only ever deletes the entry
under the cursor, so iterating over the snapshot list is equivalent (keys
of a `Map` are unique).  A throw inside `removeNode` propagates. -/
def cleanupGo (now : Nat) : List (String × Entry) → DHTState → Option DHTState
  | [], st => some st
  | (nid, e) :: rest, st =>
    if isStale now e then
      match removeNode st nid with
      | some st' => cleanupGo now rest st'
      | none => none
    else cleanupGo now rest st

/-- `DHTManager.cleanupStaleNodes()`, with `Date.now()` passed as `now`. -/
def cleanupStaleNodes (st : DHTState) (now : Nat) : Option DHTState :=
  cleanupGo now st.routingTable st

/-- The comparator of `getClosestNodes`: `(a, b) => a.distance - b.distance`
on the annotated triples.  A JS numeric comparator sorts ascending; the
engine's sort is stable, which a stable `mergeSort` with the corresponding
boolean `≤` reproduces exactly. -/
def distLE (a b : String × Entry × Int) : Bool :=
  a.2.2 ≤ b.2.2

/-- `DHTManager.getClosestNodes(targetId, count)`: annotate every
routing-table entry with its distance to `targetId`, stable-sort ascending
by distance, take the first `count`, and drop the distance again. -/
def getClosestNodes (st : DHTState) (targetId : String) (count : Nat) :
    List (String × Entry) :=
  if st.routingTable.length = 0 then []
  else
    (((st.routingTable.map
        (fun p => (p.1, p.2, calculateDistance targetId p.1))).mergeSort
          distLE).take count).map (fun t => (t.1, t.2.1))

theorem distLE_trans (a b c : String × Entry × Int) :
    distLE a b → distLE b c → distLE a c := by
  simp only [distLE, decide_eq_true_eq]
  exact le_trans

theorem distLE_total (a b : String × Entry × Int) : distLE a b || distLE b a := by
  simp only [distLE, Bool.or_eq_true, decide_eq_true_eq]
  exact Int.le_total _ _

/-- C5: `getClosestNodes(target, k)` returns at most `k` entries, sorted
by non-decreasing XOR distance to `target`. -/
theorem getClosestNodes_sorted_and_bounded (st : DHTState) (targetId : String)
    (count : Nat) :
    (getClosestNodes st targetId count).length ≤ count ∧
    (getClosestNodes st targetId count).Pairwise
      (fun a b => calculateDistance targetId a.1 ≤ calculateDistance targetId b.1) := by
  unfold getClosestNodes
  split
  · simp
  · set l := st.routingTable.map
      (fun p => (p.1, p.2, calculateDistance targetId p.1)) with hl
    have hmemdist : ∀ x ∈ (l.mergeSort distLE).take count,
        x.2.2 = calculateDistance targetId x.1 := by
      intro x hx
      have hx' : x ∈ l.mergeSort distLE := List.mem_of_mem_take hx
      rw [List.mem_mergeSort, hl, List.mem_map] at hx'
      obtain ⟨p, -, rfl⟩ := hx'
      rfl
    constructor
    · rw [List.length_map]
      exact le_trans (List.length_take_le _ _) le_rfl
    · rw [List.pairwise_map]
      have hsorted : (l.mergeSort distLE).Pairwise (fun a b => distLE a b) :=
        List.sorted_mergeSort distLE_trans distLE_total l
      have htake : ((l.mergeSort distLE).take count).Pairwise
          (fun a b => distLE a b) :=
        hsorted.sublist (List.take_sublist _ _)
      refine htake.imp_of_mem ?_
      intro a b ha hb hab
      have hda := hmemdist a ha
      have hdb := hmemdist b hb
      simp only [distLE, decide_eq_true_eq] at hab
      rw [hda, hdb] at hab
      exact hab

/-- Entry inserted first, with the older `lastSeen`. -/
def entryOld : Entry := ⟨⟨"10.0.0.1", 6001⟩, 100⟩

/-- Entry inserted second, with the newer `lastSeen`. -/
def entryNew : Entry := ⟨⟨"10.0.0.2", 6001⟩, 200⟩

/-- A routing-table state with two entries at equal XOR distance from
target `"0000"`: `"01"` decodes to `[0x01]` (distance 1, via length
truncation) and `"0001"` decodes to `[0x00, 0x01]` (distance 1). -/
def tieState : DHTState :=
  ⟨"00", [("01", entryOld), ("0001", entryNew)], fun _ => []⟩

/-- C6 counterexample: both entries of `tieState` are at distance 1 from
`"0000"`, the first-inserted entry has the strictly smaller `lastSeen`,
yet `getClosestNodes` returns it first — the tie is broken by
routing-table insertion order, not by `lastSeen` descending as the claim
states. -/
theorem getClosestNodes_tie_ignores_lastSeen :
    calculateDistance "0000" "01" = calculateDistance "0000" "0001" ∧
    entryOld.lastSeen < entryNew.lastSeen ∧
    getClosestNodes tieState "0000" 20 = [("01", entryOld), ("0001", entryNew)] := by
  refine ⟨by decide, by decide, ?_⟩
  unfold getClosestNodes
  rw [if_neg (by decide)]
  rw [List.mergeSort_of_sorted]
  · decide
  · decide

/-- C6 amended: when two routing-table entries are at equal XOR distance
from the target, `getClosestNodes` preserves their routing-table
(insertion) order — the comparator is only `a.distance - b.distance` and
the sort is stable, so `lastSeen` plays no role in tie-breaking. -/
theorem getClosestNodes_tie_insertion_order (st : DHTState) (targetId : String)
    (a b : String × Entry)
    (hsub : List.Sublist [a, b] st.routingTable)
    (hdist : calculateDistance targetId a.1 = calculateDistance targetId b.1) :
    List.Sublist [a, b] (getClosestNodes st targetId st.routingTable.length) := by
  have hne : ¬ st.routingTable.length = 0 := by
    intro h
    rw [List.length_eq_zero] at h
    rw [h] at hsub
    exact absurd (List.sublist_nil.mp hsub) (by simp)
  unfold getClosestNodes
  rw [if_neg hne]
  set f : String × Entry → String × Entry × Int :=
    fun p => (p.1, p.2, calculateDistance targetId p.1) with hf
  have hsub' : List.Sublist [f a, f b] (st.routingTable.map f) := by
    simpa using hsub.map f
  have hpair : List.Pairwise (fun x y => distLE x y) [f a, f b] := by
    constructor
    · intro y hy
      rw [List.mem_singleton] at hy
      subst hy
      simp only [distLE, hf, decide_eq_true_eq]
      exact le_of_eq hdist
    · constructor
      · intro y hy
        cases hy
      · exact List.Pairwise.nil
  have hms : List.Sublist [f a, f b] ((st.routingTable.map f).mergeSort distLE) :=
    List.sublist_mergeSort distLE_trans distLE_total hpair hsub'
  have hlen : st.routingTable.length =
      ((st.routingTable.map f).mergeSort distLE).length := by
    rw [List.length_mergeSort, List.length_map]
  rw [hlen, List.take_length]
  have := hms.map (fun t : String × Entry × Int => (t.1, t.2.1))
  simpa [hf] using this

/-- A sample `info` argument for `addNode`. -/
def infoSample : NodeInfo := ⟨"10.0.0.9", 6001⟩

/-- An empty DHT whose local node id is `"00"`. -/
def emptyDHT : DHTState := ⟨"00", [], fun _ => []⟩

/-- 21 distinct one-byte hex ids whose XOR distances from the local id
`"00"` are 128..148, so `floor(log2 distance) = 7` puts all of them in
bucket 7. -/
def bucket7Ids : List String :=
  ["80", "81", "82", "83", "84", "85", "86", "87", "88", "89", "8a",
   "8b", "8c", "8d", "8e", "8f", "90", "91", "92", "93", "94"]

/-- The state after `addNode` of all 21 ids of `bucket7Ids`. -/
def overfullState : DHTState :=
  bucket7Ids.foldl (fun s i => (addNode s (some i) infoSample 0).2) emptyDHT

set_option maxRecDepth 100000 in
/-- C1 counterexample: after 21 `addNode` calls whose targets all map to
bucket 7, that bucket holds 21 entries — `addNode` has no capacity check
and never evicts, so a bucket grows beyond k = 20. -/
theorem bucket_exceeds_capacity :
    (overfullState.buckets 7).length = 21 ∧ 20 < (overfullState.buckets 7).length := by
  constructor <;> decide

theorem getBucketIndex_le_159 (a b : String) (i : Nat)
    (h : getBucketIndex a b = some i) : i ≤ 159 := by
  simp only [getBucketIndex] at h
  split at h
  · rw [Option.some_inj] at h
    omega
  · split at h
    · rw [Option.some_inj] at h
      omega
    · exact absurd h (by simp)

theorem mapSet_length_ge (m : PeerMap) (k : String) (v : Entry) :
    m.length ≤ (mapSet m k v).length := by
  unfold mapSet
  split
  · rw [List.length_map]
  · rw [List.length_append]
    omega

/-- C1 amended: `addNode` inserts or refreshes the entry in its target
bucket with no capacity check and no eviction — the bucket after the call
is exactly `Map.set` of the bucket before, so its size never decreases
(and strictly grows for a new key), regardless of whether it already held
k = 20 entries. -/
theorem addNode_no_eviction (st : DHTState) (nid : String) (info : NodeInfo)
    (now : Nat) (i : Nat) (hnid : nid ≠ "")
    (hidx : getBucketIndex st.nodeId nid = some i) :
    (addNode st (some nid) info now).2.buckets i = mapSet (st.buckets i) nid ⟨info, now⟩ ∧
    (st.buckets i).length ≤ ((addNode st (some nid) info now).2.buckets i).length := by
  have hlt : i < 160 := Nat.lt_of_le_of_lt (getBucketIndex_le_159 _ _ _ hidx) (by omega)
  simp only [addNode]
  rw [if_neg hnid, hidx]
  simp only [if_pos hlt, if_pos rfl]
  exact ⟨rfl, mapSet_length_ge _ _ _⟩

/-- Witness for `addNode_no_eviction` at the empty DHT and id `"80"`
(bucket 7). -/
theorem addNode_no_eviction_witness :
    (addNode emptyDHT (some "80") infoSample 0).2.buckets 7 =
      mapSet (emptyDHT.buckets 7) "80" ⟨infoSample, 0⟩ ∧
    (emptyDHT.buckets 7).length ≤
      ((addNode emptyDHT (some "80") infoSample 0).2.buckets 7).length :=
  addNode_no_eviction emptyDHT "80" infoSample 0 7 (by decide) (by decide)

/-- A 64-hex-character (32-byte) id of all zero bytes, the shape of the
sha256-derived node ids the code generates. -/
def zeros64 : String :=
  "0000000000000000000000000000000000000000000000000000000000000000"

/-- A 64-hex-character id whose XOR distance from `zeros64` has its
32-bit truncation equal to 0x80000000: the signed reading is negative. -/
def badId64 : String :=
  "0000000000000000000000000000000000000000000000000000000080000000"

/-- A DHT state (local id `zeros64`) holding `badId64` in the routing
table; `addNode` produces exactly such states, since it inserts into
`routingTable` even when the bucket index is `NaN`. -/
def nanState : DHTState :=
  ⟨zeros64, [(badId64, ⟨infoSample, 0⟩)], fun _ => []⟩

/-- C9: at a pair of well-formed hex ids whose truncated 32-bit XOR
distance is negative, `Math.log2` yields `NaN`, `Math.max(0, NaN)` is
`NaN`, and `_getBucketIndex` returns `NaN` rather than an integer in
[0, 159]; `removeNode` on such a node then evaluates
`this.buckets[NaN].delete(...)` and throws a `TypeError` (`none`). -/
theorem getBucketIndex_nan_at_negative_distance :
    calculateDistance zeros64 badId64 = -2147483648 ∧
    getBucketIndex zeros64 badId64 = none ∧
    removeNode nanState badId64 = none := by
  refine ⟨by decide, by decide, ?_⟩
  rw [← Option.isNone_iff_eq_none]
  decide

/-- C10: `addNode` with a missing (`null`/`undefined`) or empty node id
returns `false` and leaves the whole state — routing table and every
bucket — untouched. -/
theorem addNode_missing_id_noop (st : DHTState) (info : NodeInfo) (now : Nat)
    (nid : Option String) (h : nid = none ∨ nid = some "") :
    addNode st nid info now = (false, st) := by
  rcases h with h | h <;> subst h
  · rfl
  · simp [addNode]

/-- Witness for `addNode_missing_id_noop` at the `tieState` table and the
empty-string id. -/
theorem addNode_missing_id_noop_witness :
    addNode tieState (some "") infoSample 1000 = (false, tieState) :=
  addNode_missing_id_noop tieState infoSample 1000 (some "") (Or.inr rfl)

theorem removeNode_not_present (st : DHTState) (nid : String)
    (h : mapHas st.routingTable nid = false) : removeNode st nid = some st := by
  simp [removeNode, h]

theorem removeNode_present (st : DHTState) (nid : String)
    (hhas : mapHas st.routingTable nid = true)
    (hdef : (getBucketIndex st.nodeId nid).isSome) :
    ∃ st', removeNode st nid = some st' ∧
      st'.routingTable = mapDelete st.routingTable nid ∧
      st'.nodeId = st.nodeId := by
  simp only [removeNode, hhas, if_true]
  cases hidx : getBucketIndex st.nodeId nid with
  | some i => exact ⟨_, rfl, rfl, rfl⟩
  | none => rw [hidx] at hdef; simp at hdef

theorem mapHas_of_mapDelete (m : PeerMap) (k q : String)
    (h : mapHas (mapDelete m k) q = true) : mapHas m q = true := by
  simp only [mapHas, mapDelete, List.any_eq_true] at *
  obtain ⟨p, hp, hpq⟩ := h
  exact ⟨p, List.mem_of_mem_filter hp, hpq⟩

theorem cleanupGo_fresh (now : Nat) (l : List (String × Entry)) (st : DHTState)
    (h : ∀ p ∈ l, isStale now p.2 = false) : cleanupGo now l st = some st := by
  induction l generalizing st with
  | nil => rfl
  | cons p rest ih =>
    obtain ⟨nid, e⟩ := p
    have hs := h (nid, e) (List.mem_cons_self _ _)
    simp only [cleanupGo, hs, Bool.false_eq_true, if_false]
    exact ih st (fun q hq => h q (List.mem_cons_of_mem _ hq))

theorem cleanupGo_spec (now : Nat) :
    ∀ (l : List (String × Entry)) (st : DHTState),
    (∀ p ∈ l, isStale now p.2 = true → mapHas st.routingTable p.1 = true →
      (getBucketIndex st.nodeId p.1).isSome) →
    ∃ st', cleanupGo now l st = some st' ∧
      st'.routingTable = st.routingTable.filter
        (fun q => !(l.any (fun p => p.1 == q.1 && isStale now p.2))) ∧
      st'.nodeId = st.nodeId := by
  intro l
  induction l with
  | nil =>
    intro st _
    exact ⟨st, rfl, by simp, rfl⟩
  | cons p rest ih =>
    intro st h
    obtain ⟨nid, e⟩ := p
    by_cases hs : isStale now e = true
    · by_cases hhas : mapHas st.routingTable nid = true
      · have hdef := h (nid, e) (List.mem_cons_self _ _) hs hhas
        obtain ⟨st₁, hrm, hrt₁, hnode₁⟩ := removeNode_present st nid hhas hdef
        have hstep : cleanupGo now ((nid, e) :: rest) st = cleanupGo now rest st₁ := by
          simp [cleanupGo, hs, hrm]
        obtain ⟨st', hgo, hrt', hnode'⟩ := ih st₁ (fun q hq hstq hhasq => by
          rw [hnode₁]
          exact h q (List.mem_cons_of_mem _ hq) hstq
            (mapHas_of_mapDelete _ nid _ (hrt₁ ▸ hhasq)))
        refine ⟨st', by rw [hstep]; exact hgo, ?_, by rw [hnode', hnode₁]⟩
        rw [hrt', hrt₁]
        simp only [mapDelete, List.filter_filter]
        apply List.filter_congr
        intro q _
        simp only [List.any_cons, hs, Bool.and_true, Bool.not_or, bne]
        rw [Bool.beq_comm]
        exact Bool.and_comm _ _
      · have hhas' : mapHas st.routingTable nid = false := by
          simpa using hhas
        have hstep : cleanupGo now ((nid, e) :: rest) st = cleanupGo now rest st := by
          simp [cleanupGo, hs, removeNode_not_present st nid hhas']
        obtain ⟨st', hgo, hrt', hnode'⟩ := ih st
          (fun q hq hstq hhasq => h q (List.mem_cons_of_mem _ hq) hstq hhasq)
        refine ⟨st', by rw [hstep]; exact hgo, ?_, hnode'⟩
        rw [hrt']
        apply List.filter_congr
        intro q hq
        have hqnid : (nid == q.1) = false := by
          simp only [mapHas, List.any_eq_false] at hhas'
          rw [Bool.beq_comm]
          simpa using hhas' q hq
        simp only [List.any_cons, hqnid, Bool.false_and, Bool.false_or]
    · have hs' : isStale now e = false := by simpa using hs
      have hstep : cleanupGo now ((nid, e) :: rest) st = cleanupGo now rest st := by
        simp [cleanupGo, hs']
      obtain ⟨st', hgo, hrt', hnode'⟩ := ih st
        (fun q hq hstq hhasq => h q (List.mem_cons_of_mem _ hq) hstq hhasq)
      refine ⟨st', by rw [hstep]; exact hgo, ?_, hnode'⟩
      rw [hrt']
      apply List.filter_congr
      intro q _
      simp only [List.any_cons, hs', Bool.and_false, Bool.false_or]

/-- C7 amended: provided routing-table keys are distinct (an invariant of
the JS `Map`) and every stale entry's bucket index is defined (its 32-bit
XOR distance from the local id is nonnegative — otherwise `removeNode`
throws on `buckets[NaN]`, see the counterexample), `cleanupStaleNodes`
removes exactly the entries with `now - lastSeen > TTL` and no others,
and is idempotent: an immediate second run removes nothing further. -/
theorem cleanupStaleNodes_exact (st : DHTState) (now : Nat)
    (hnodup : (st.routingTable.map Prod.fst).Nodup)
    (hdef : ∀ p ∈ st.routingTable, isStale now p.2 = true →
      (getBucketIndex st.nodeId p.1).isSome) :
    ∃ st', cleanupStaleNodes st now = some st' ∧
      st'.routingTable = st.routingTable.filter (fun p => !(isStale now p.2)) ∧
      cleanupStaleNodes st' now = some st' := by
  obtain ⟨st', hgo, hrt, hnode⟩ := cleanupGo_spec now st.routingTable st
    (fun p hp hst _ => hdef p hp hst)
  have hrt' : st'.routingTable = st.routingTable.filter (fun p => !(isStale now p.2)) := by
    rw [hrt]
    apply List.filter_congr
    intro q hq
    congr 1
    cases hsq : isStale now q.2
    · rw [List.any_eq_false]
      intro p hp
      by_cases hpq : p.1 = q.1
      · have hpeq : p = q :=
          List.inj_on_of_nodup_map hnodup hp hq hpq
        subst hpeq
        simp [hsq]
      · simp [hpq]
    · rw [List.any_eq_true]
      exact ⟨q, hq, by simp [hsq]⟩
  refine ⟨st', hgo, hrt', ?_⟩
  apply cleanupGo_fresh
  intro p hp
  rw [hrt'] at hp
  simpa using List.of_mem_filter hp

/-- C7 counterexample: a reachable state (one `addNode` of `badId64` into
a DHT whose local id is `zeros64` produces it) on which the claim fails:
the single entry is stale at `now = TTL + 1`, so the claim demands a
normal return with that entry removed, but `removeNode` throws a
`TypeError` on `buckets[NaN]` and `cleanupStaleNodes` propagates it. -/
theorem cleanupStaleNodes_throws_on_nan :
    cleanupStaleNodes nanState 1800001 = none ∧
    nanState.routingTable.filter (fun p => !(isStale 1800001 p.2)) = [] := by
  constructor
  · rw [← Option.isNone_iff_eq_none]
    decide
  · decide

/-- A state with one stale and one fresh entry, both with well-defined
bucket indices. -/
def cleanState : DHTState :=
  ⟨"00", [("01", ⟨infoSample, 0⟩), ("02", ⟨infoSample, 5000000⟩)], fun _ => []⟩

/-- Witness for `cleanupStaleNodes_exact` on `cleanState` at
`now = 5000000`: the stale entry `"01"` goes, the fresh entry `"02"`
stays, and a second run changes nothing. -/
theorem cleanupStaleNodes_exact_witness :
    ∃ st', cleanupStaleNodes cleanState 5000000 = some st' ∧
      st'.routingTable = cleanState.routingTable.filter
        (fun p => !(isStale 5000000 p.2)) ∧
      cleanupStaleNodes st' 5000000 = some st' :=
  cleanupStaleNodes_exact cleanState 5000000 (by decide) (by decide)

/-- Witness for `getClosestNodes_tie_insertion_order` on `tieState`: the
two tied entries come back in table order. -/
theorem getClosestNodes_tie_insertion_order_witness :
    List.Sublist [("01", entryOld), ("0001", entryNew)]
      (getClosestNodes tieState "0000" tieState.routingTable.length) :=
  getClosestNodes_tie_insertion_order tieState "0000" ("01", entryOld)
    ("0001", entryNew) (List.Sublist.refl _) (by decide)

/-- A libp2p peer identity as the code exports and persists it: the
peer-id string plus base64-encoded key pair. -/
structure PeerId where
  id : String
  privKey : String
  pubKey : String
  deriving DecidableEq, Repr

/-- The persisted `peerId` field of `node-info.json`, in the shapes the
loader distinguishes: a full object with `id`, `privKey` and `pubKey`
(CASE 1); an object missing at least one of those fields; a JSON string
that parses to a full object (CASE 2; such a string starts with a brace,
never with `12D3KooW`); or a plain string (CASE 3 when it starts with
`12D3KooW`, otherwise unusable). -/
inductive StoredPeerId where
  | objFull (id privKey pubKey : String)
  | objPartial
  | strJson (id privKey pubKey : String)
  | strPlain (s : String)
  deriving DecidableEq, Repr

/-- A parsed `node-info.json` record as `loadNodeInfo` returns it. -/
structure StoredRecord where
  nodeId : String
  peerId : Option StoredPeerId
  deriving DecidableEq, Repr

/-- The shapes of the `node-info.json` file on disk that
`loadNodeInfo` distinguishes. -/
inductive FileContent where
  | missing
  | empty
  | unparseable
  | parsed (nodeId : Option String) (peerId : Option StoredPeerId)
  deriving DecidableEq, Repr

/-- `NodeStorage.loadNodeInfo()`: returns `null` (`none`) when the file
is missing, empty or unparseable, or when the parsed data lacks `nodeId`;
otherwise returns the parsed record (the `peerId` shape checks in the
body only log warnings).  Every error path is caught and returns `null`;
the function never throws, and no `IdentityCorruptError` exists anywhere
in the code. -/
def loadNodeInfo : FileContent → Option StoredRecord
  | .missing => none
  | .empty => none
  | .unparseable => none
  | .parsed none _ => none
  | .parsed (some nid) pid => some ⟨nid, pid⟩

/-- `s.startsWith('12D3KooW')` as the JS code tests it, on the character
list of the string (kernel-computable, unlike `String.startsWith`, which
is defined by well-founded recursion on byte positions). -/
def isPeerIdString (s : String) : Bool :=
  List.isPrefixOf "12D3KooW".data s.data

/-- `NetworkManager._loadOrCreatePeerId()`, with the two sources of fresh
randomness passed in explicitly: `temp` is the `createEd25519PeerId()`
result CASE 3 uses to splice new keys under the stored id string, and
`created` is the identity `_createNewPeerId()` would produce.
`createFromJSON` is modelled on its happy path as reconstructing the peer
id exactly from the given fields (so CASE 3's `toString()` check against
the stored string passes). -/
def loadOrCreatePeerId (savedInfo : Option StoredRecord) (temp created : PeerId) :
    PeerId :=
  match savedInfo with
  | some r =>
    match r.peerId with
    | some (.objFull id priv pub) => ⟨id, priv, pub⟩
    | some (.strJson id priv pub) => ⟨id, priv, pub⟩
    | some (.strPlain s) =>
      if isPeerIdString s then ⟨s, temp.privKey, temp.pubKey⟩
      else created
    | some .objPartial => created
    | none => created
  | none => created

/-- A persisted record whose `peerId` is a plain id string (the legacy
format CASE 3 handles). -/
def plainStored : StoredRecord := ⟨"nodeA", some (.strPlain "12D3KooWlegacy")⟩

/-- One possible outcome of `createEd25519PeerId()`. -/
def tempA : PeerId := ⟨"tmpA", "privA", "pubA"⟩

/-- Another possible outcome of `createEd25519PeerId()`. -/
def tempB : PeerId := ⟨"tmpB", "privB", "pubB"⟩

/-- One possible outcome of `_createNewPeerId()`. -/
def createdX : PeerId := ⟨"createdId", "createdPriv", "createdPub"⟩

/-- C2 counterexample: for the persisted record `plainStored` the loaded
identity's key material is freshly generated, not read from the store —
two different draws of the `createEd25519PeerId()` randomness give two
different loaded identities, and the keys are exactly the fresh ones,
spliced under the stored id. -/
theorem loadOrCreatePeerId_regenerates_keys :
    loadOrCreatePeerId (some plainStored) tempA createdX ≠
      loadOrCreatePeerId (some plainStored) tempB createdX ∧
    loadOrCreatePeerId (some plainStored) tempA createdX =
      ⟨"12D3KooWlegacy", "privA", "pubA"⟩ := by
  constructor <;> decide

/-- C2 amended: a record persisted in full form — an object or a JSON
string carrying `id`, `privKey` and `pubKey` — loads verbatim, every
field taken from the store; but a record whose `peerId` is only a plain
`12D3KooW...` id string loads as an identity that keeps the stored id
with freshly generated key material. -/
theorem loadOrCreatePeerId_full_verbatim :
    (∀ nid id priv pub temp created,
      loadOrCreatePeerId (some ⟨nid, some (.objFull id priv pub)⟩) temp created =
        ⟨id, priv, pub⟩) ∧
    (∀ nid id priv pub temp created,
      loadOrCreatePeerId (some ⟨nid, some (.strJson id priv pub)⟩) temp created =
        ⟨id, priv, pub⟩) ∧
    (∀ nid s temp created, isPeerIdString s →
      loadOrCreatePeerId (some ⟨nid, some (.strPlain s)⟩) temp created =
        ⟨s, temp.privKey, temp.pubKey⟩) := by
  refine ⟨fun _ _ _ _ _ _ => rfl, fun _ _ _ _ _ _ => rfl, ?_⟩
  intro nid s temp created hpre
  simp only [loadOrCreatePeerId]
  rw [if_pos hpre]

/-- Witness for `loadOrCreatePeerId_full_verbatim`: the legacy-string
branch at a concrete record. -/
theorem loadOrCreatePeerId_full_verbatim_witness :
    loadOrCreatePeerId (some ⟨"n", some (.strPlain "12D3KooWabc")⟩) tempA createdX =
      ⟨"12D3KooWabc", "privA", "pubA"⟩ :=
  loadOrCreatePeerId_full_verbatim.2.2 "n" "12D3KooWabc" tempA createdX (by decide)

/-- C3 counterexample: an unparseable persisted record makes
`loadNodeInfo` return `null` — no `IdentityCorruptError` is thrown, the
loader has no error outcome at all — and `_loadOrCreatePeerId` then
silently returns a freshly fabricated identity: whatever
`_createNewPeerId()` produces, independent of the store. -/
theorem load_corrupt_record_fabricates :
    loadNodeInfo .unparseable = none ∧
    loadOrCreatePeerId (loadNodeInfo .unparseable) tempA createdX = createdX ∧
    loadOrCreatePeerId (loadNodeInfo .unparseable) tempA ⟨"otherId", "p", "q"⟩ =
      ⟨"otherId", "p", "q"⟩ :=
  ⟨rfl, rfl, rfl⟩

/-- C3 amended: on a persisted record that is unparseable, empty, or
missing required fields (`nodeId`, or a `peerId` object missing keys),
`loadNodeInfo` returns `null` and never throws, and
`_loadOrCreatePeerId` silently creates a replacement identity itself —
the caller is never asked to decide. -/
theorem load_corrupt_record_creates_fresh (temp created : PeerId) :
    loadOrCreatePeerId (loadNodeInfo .unparseable) temp created = created ∧
    loadOrCreatePeerId (loadNodeInfo .empty) temp created = created ∧
    loadOrCreatePeerId (loadNodeInfo .missing) temp created = created ∧
    (∀ pid, loadOrCreatePeerId (loadNodeInfo (.parsed none pid)) temp created = created) ∧
    (∀ nid, loadOrCreatePeerId (loadNodeInfo (.parsed (some nid) (some .objPartial)))
      temp created = created) :=
  ⟨rfl, rfl, rfl, fun _ => rfl, fun _ => rfl⟩

/-- A peer connection as `broadcast` inspects it: its `status` string and
whether opening a stream and writing the message to it succeeds (the
outcome of the per-peer `try` block, determined by the network). -/
structure Conn where
  status : String
  sendOk : Bool
  deriving DecidableEq, Repr

/-- The loop of `NetworkManager.broadcast`: for every peer of
`this.peers` whose connection status is `'connected'`, try to send; a
failure is caught, logged, and the loop continues with the next peer; a
success increments `stats.messagesSent`.  The accumulator carries the
list of peers a send was attempted to and the `messagesSent` counter. -/
def broadcastLoop : List (String × Conn) → List String × Nat → List String × Nat
  | [], acc => acc
  | (pid, c) :: rest, (att, cnt) =>
    if c.status == "connected" then
      if c.sendOk then broadcastLoop rest (att ++ [pid], cnt + 1)
      else broadcastLoop rest (att ++ [pid], cnt)
    else broadcastLoop rest (att, cnt)

/-- `NetworkManager.broadcast(message)`: the loop over `this.peers`
together with the JS value the function returns.  The body ends without
a `return` statement, so the returned value is `undefined`, modelled as
`none : Option Nat`. -/
def broadcast (peers : List (String × Conn)) : (List String × Nat) × Option Nat :=
  (broadcastLoop peers ([], 0), none)

/-- Peers for the C4 counterexample: three connected peers of which the
second fails on send, plus one non-connected peer. -/
def peersMixed : List (String × Conn) :=
  [("a", ⟨"connected", true⟩), ("b", ⟨"connected", false⟩),
   ("c", ⟨"connected", true⟩), ("d", ⟨"dialing", true⟩)]

/-- C4 counterexample: on `peersMixed` the loop does attempt delivery to
every connected peer, continuing past the failed send to `"b"` — but the
call returns `undefined`, not the count `2` of successful deliveries, so
the returns-the-count half of the claim is false. -/
theorem broadcast_returns_undefined :
    (broadcast peersMixed).1.1 = ["a", "b", "c"] ∧
    (broadcast peersMixed).1.2 = 2 ∧
    (broadcast peersMixed).2 = none ∧
    (broadcast peersMixed).2 ≠ some 2 := by
  refine ⟨by decide, by decide, rfl, by decide⟩

theorem broadcastLoop_spec (l : List (String × Conn)) (att : List String) (cnt : Nat) :
    broadcastLoop l (att, cnt) =
      (att ++ (l.filter (fun p => p.2.status == "connected")).map Prod.fst,
       cnt + (l.filter (fun p => p.2.status == "connected" && p.2.sendOk)).length) := by
  induction l generalizing att cnt with
  | nil => simp [broadcastLoop]
  | cons p rest ih =>
    obtain ⟨pid, c⟩ := p
    cases hc : (c.status == "connected") <;> cases hk : c.sendOk <;>
      simp [broadcastLoop, hc, hk, ih, List.filter_cons] <;> omega

/-- C4 amended: `broadcast` attempts delivery to every connected session
— a send failure to one peer is logged and does not stop delivery to the
remaining peers — and it counts each success in `stats.messagesSent`, but
it returns `undefined` (no value) rather than the count of successful
deliveries. -/
theorem broadcast_best_effort (peers : List (String × Conn)) :
    (broadcast peers).1.1 =
      (peers.filter (fun p => p.2.status == "connected")).map Prod.fst ∧
    (broadcast peers).1.2 =
      (peers.filter (fun p => p.2.status == "connected" && p.2.sendOk)).length ∧
    (broadcast peers).2 = none := by
  unfold broadcast
  rw [broadcastLoop_spec]
  simp

end Drkn
